import Mathlib

/-!
Shallow embedding of the `teclas` keystroke-handling library (`src/mod.ts`).

The library consists of:
* `isMacOS` — a platform detector reading the ambient user-agent string and
  testing it against the regular expression `/Mac/`, i.e. a literal substring
  match for `"Mac"`;
* the `Key` catalog of one-key predicates (`CheckKeypress` values), some of
  which consult `isMacOS` at every call;
* `checkKeystroke` — a conjunction of the rule's `keys` predicates and the
  negations of its `except` predicates, computed with `Array.prototype.reduce`;
* `handleKeyboard` — a factory returning a dispatcher closure that walks the
  rule list with `forEach` and invokes `cb(ev)` for every matching rule.

Modelling choices, all forced by the source:
* A JavaScript closure of shape `(ev) => ...` that reads the ambient
  `globalThis.navigator.userAgent` is embedded as a function that also
  receives the ambient user-agent string in force at call time; predicates
  that ignore it discard the argument.  This is the standard state-passing
  embedding of reading a mutable global.
* Callbacks may have effects and may throw, so a callback is embedded as
  `Event → Except ε α`: `Except.ok a` is a normal return whose observable
  effect is summarised by `a`, `Except.error e` is a thrown exception `e`.
  The dispatcher's observable behaviour is the ordered trace of callback
  invocations (which callback, with which argument) together with the
  exception that escaped, if any.
-/

/-- A keyboard event; the library reads only its `key` field
(`interface Event { key: string }` in `src/mod.ts`). -/
structure Event where
  key : String
deriving DecidableEq, Repr

/-- `isMacOS` from `src/mod.ts`:
`(): boolean => /Mac/.test(globalThis.navigator.userAgent)`.
The regular expression `/Mac/` has no metacharacters, so its `test` is exactly
the literal-substring test for `"Mac"`.  The ambient user-agent string is
passed explicitly. -/
def isMacOS (ua : String) : Bool :=
  decide (("Mac").toList <:+: ua.toList)

/-- `type CheckKeypress = (ev: Event) => boolean` from `src/mod.ts`; the
closure may read the ambient user-agent string, which is passed as the first
argument. -/
def CheckKeypress : Type := String → Event → Bool

namespace Key

/-- Checks if the Enter key is pressed. -/
def Enter : CheckKeypress := fun _ ev => ev.key == "Enter"

/-- Checks if the Backspace key is pressed. -/
def Backspace : CheckKeypress := fun _ ev => ev.key == "Backspace"

/-- Checks if the Shift key is pressed. -/
def Shift : CheckKeypress := fun _ ev => ev.key == "Shift"

/-- Checks if the Escape key is pressed. -/
def Escape : CheckKeypress := fun _ ev => ev.key == "Escape"

/-- Checks if the Tab key is pressed. -/
def Tab : CheckKeypress := fun _ ev => ev.key == "Tab"

/-- Checks if the Control key is pressed. -/
def Control : CheckKeypress := fun _ ev => ev.key == "Control"

/-- Checks if the Meta key is pressed. -/
def Meta : CheckKeypress := fun _ ev => ev.key == "Meta"

/-- Checks if the Alt key is pressed. -/
def Alt : CheckKeypress := fun _ ev => ev.key == "Alt"

/-- Checks if the Spacebar is pressed. -/
def Spacebar : CheckKeypress := fun _ ev => ev.key == " "

/-- Checks if the Arrow Up key is pressed. -/
def Up : CheckKeypress := fun _ ev => ev.key == "ArrowUp"

/-- Checks if the Arrow Down key is pressed. -/
def Down : CheckKeypress := fun _ ev => ev.key == "ArrowDown"

/-- Checks if the Arrow Left key is pressed. -/
def Left : CheckKeypress := fun _ ev => ev.key == "ArrowLeft"

/-- Checks if the Arrow Right key is pressed. -/
def Right : CheckKeypress := fun _ ev => ev.key == "ArrowRight"

/-- Checks if the Control key (Windows) is pressed; consults `isMacOS` at call
time. -/
def CtrlWin : CheckKeypress := fun ua ev => ev.key == "Control" && !(isMacOS ua)

/-- Checks if the Windows key is pressed; consults `isMacOS` at call time. -/
def WindowsKey : CheckKeypress := fun ua ev => ev.key == "Meta" && !(isMacOS ua)

/-- Checks if the Control key (macOS) is pressed; consults `isMacOS` at call
time. -/
def CtrlMac : CheckKeypress := fun ua ev => ev.key == "Control" && isMacOS ua

/-- Checks if the Command key (macOS) is pressed; consults `isMacOS` at call
time. -/
def Command : CheckKeypress := fun ua ev => ev.key == "Meta" && isMacOS ua

/-- Checks if either Control (Windows) or Meta (macOS) is pressed; consults
`isMacOS` at call time. -/
def mod1 : CheckKeypress := fun ua ev =>
  (ev.key == "Control" && !(isMacOS ua)) || (ev.key == "Meta" && isMacOS ua)

/-- Checks if either Control (macOS) or Meta (Windows) is pressed; consults
`isMacOS` at call time. -/
def mod2 : CheckKeypress := fun ua ev =>
  (ev.key == "Control" && isMacOS ua) || (ev.key == "Meta" && !(isMacOS ua))

end Key

/-- `interface iKeystroke` from `src/mod.ts`: required predicates (`keys`),
excluded predicates (`except`), and a callback.  The callback may have effects
and may throw, so it is embedded as `Event → Except ε α` (see the module
docstring); `ε` is the type of thrown exceptions, `α` summarises a normal
return. -/
structure iKeystroke (ε α : Type) where
  keys : List CheckKeypress
  except : List CheckKeypress
  cb : Event → Except ε α

/-- `checkKeystroke` from `src/mod.ts`: a left fold (`reduce` with initial
value `true`) of `acc && p(ev)` over `keys`, conjoined with a left fold of
`acc && !p(ev)` over `except`.  `ua` is the ambient user-agent string the
predicates read when called. -/
def checkKeystroke {ε α : Type} (keystroke : iKeystroke ε α) (ev : Event)
    (ua : String) : Bool :=
  (keystroke.keys.foldl
    (fun accumulator currentValue => accumulator && currentValue ua ev) true)
  && (keystroke.except.foldl
    (fun accumulator currentValue => accumulator && !(currentValue ua ev)) true)

/-- One run of the dispatcher closure produced by `handleKeyboard`, with the
ambient user-agent string `ua` in force: walk the rules in order
(`forEach`); for each rule passing `checkKeystroke`, invoke its callback on
the event.  The result is the ordered trace of callback invocations — pairs of
the invoked callback and its argument — together with the exception that
escaped the `forEach`, if any: a thrown exception stops the walk and
propagates (that callback was invoked; later rules are not examined). -/
def dispatchRun {ε α : Type} :
    List (iKeystroke ε α) → Event → String →
      List ((Event → Except ε α) × Event) × Option ε
  | [], _, _ => ([], none)
  | keystroke :: rest, ev, ua =>
    if checkKeystroke keystroke ev ua then
      match keystroke.cb ev with
      | Except.error e => ([(keystroke.cb, ev)], some e)
      | Except.ok _ =>
        let r := dispatchRun rest ev ua
        ((keystroke.cb, ev) :: r.1, r.2)
    else dispatchRun rest ev ua

/-- `handleKeyboard` from `src/mod.ts`: a factory returning the dispatcher
closure bound to the rule list; the closure's behaviour on an event under
ambient user-agent `ua` is `dispatchRun`. -/
def handleKeyboard {ε α : Type} (keystrokes : List (iKeystroke ε α)) :
    Event → String → List ((Event → Except ε α) × Event) × Option ε :=
  fun ev ua => dispatchRun keystrokes ev ua

/-- Modelled from the spec (refinement reference for claim C7, following the
spec's words only): evaluate every predicate in both lists eagerly, then take
the conjunction of all required predicates and of all negated excluded
predicates. -/
def checkKeystrokeEagerSpec {ε α : Type} (keystroke : iKeystroke ε α)
    (ev : Event) (ua : String) : Bool :=
  ((keystroke.keys.map (fun p => p ua ev)).all (fun b => b))
  && ((keystroke.except.map (fun p => !(p ua ev))).all (fun b => b))

/-! ### Helper lemmas -/

/-- A left fold of `acc && f x` equals the initial accumulator conjoined with
`List.all`. -/
theorem foldl_and_eq_all {β : Type} (l : List β) (f : β → Bool) :
    ∀ init : Bool, l.foldl (fun acc x => acc && f x) init = (init && l.all f) := by
  induction l with
  | nil => intro init; simp
  | cons x xs ih =>
    intro init
    simp only [List.foldl_cons, ih, List.all_cons, Bool.and_assoc]

/-- Applying `List.all` to a mapped list with the identity test is `List.all`
of the mapped function. -/
theorem all_map_id {β : Type} (l : List β) (f : β → Bool) :
    (l.map f).all (fun b => b) = l.all f := by
  induction l with
  | nil => rfl
  | cons x xs ih => simp [List.all_cons, ih]

/-- Characterisation of `checkKeystroke`: true exactly when every `keys`
predicate holds on the event and every `except` predicate fails on it. -/
theorem checkKeystroke_iff_all {ε α : Type} (k : iKeystroke ε α) (ev : Event)
    (ua : String) :
    checkKeystroke k ev ua = true ↔
      ((∀ p ∈ k.keys, p ua ev = true) ∧ (∀ p ∈ k.except, p ua ev = false)) := by
  unfold checkKeystroke
  rw [foldl_and_eq_all, foldl_and_eq_all]
  simp [List.all_eq_true, Bool.not_eq_true']

/-! ### Claim theorems -/

/-- Claim C1: `checkKeystroke(rule, event)` returns true iff every predicate in
the rule's `keys` list evaluates true on the event and every predicate in its
`except` list evaluates false on it; with both lists empty it returns true for
any event. -/
theorem checkKeystroke_spec {ε α : Type} (k : iKeystroke ε α) (ev : Event)
    (ua : String) :
    (checkKeystroke k ev ua = true ↔
      ((∀ p ∈ k.keys, p ua ev = true) ∧ (∀ p ∈ k.except, p ua ev = false)))
    ∧ (k.keys = [] → k.except = [] → checkKeystroke k ev ua = true) := by
  refine ⟨checkKeystroke_iff_all k ev ua, fun hk he => ?_⟩
  rw [checkKeystroke_iff_all]
  simp [hk, he]

/-- Claim C1 witness: the empty rule accepts a concrete event. -/
theorem checkKeystroke_spec_witness :
    checkKeystroke (ε := Unit) (α := Nat)
      ⟨[], [], fun _ => Except.ok 0⟩ ⟨"Enter"⟩ ("") = true :=
  (checkKeystroke_spec ⟨[], [], fun _ => Except.ok 0⟩ ⟨"Enter"⟩ ("")).2 rfl rfl

/-- Walking a rule list that starts with rules whose matching callbacks all
return normally: the trace records those matching rules' invocations in order,
followed by whatever the rest of the walk produces. -/
theorem dispatchRun_append {ε α : Type} (pre rest : List (iKeystroke ε α))
    (ev : Event) (ua : String)
    (h : ∀ k ∈ pre, checkKeystroke k ev ua = true →
      ∃ a, k.cb ev = Except.ok a) :
    dispatchRun (pre ++ rest) ev ua =
      ((pre.filter (fun k => checkKeystroke k ev ua)).map
          (fun k => (k.cb, ev)) ++ (dispatchRun rest ev ua).1,
        (dispatchRun rest ev ua).2) := by
  induction pre with
  | nil => simp [dispatchRun]
  | cons k pre ih =>
    by_cases hc : checkKeystroke k ev ua = true
    · obtain ⟨a, ha⟩ := h k (List.mem_cons_self k pre) hc
      have ih' := ih (fun k' hk' => h k' (List.mem_cons_of_mem k hk'))
      simp [dispatchRun, hc, ha, ih', List.filter_cons_of_pos]
    · have ih' := ih (fun k' hk' => h k' (List.mem_cons_of_mem k hk'))
      simp only [Bool.not_eq_true] at hc
      simp [dispatchRun, hc, ih', List.filter_cons_of_neg]

/-- Claim C2: the dispatcher returned by `handleKeyboard` invokes exactly the
callbacks of the rules satisfying `checkKeystroke` on the event, each with the
original event, in the rule set's declared order, provided the matching
callbacks return normally; when no rule matches, no callback is invoked and no
exception escapes. -/
theorem handleKeyboard_spec {ε α : Type} (ks : List (iKeystroke ε α))
    (ev : Event) (ua : String)
    (h : ∀ k ∈ ks, checkKeystroke k ev ua = true →
      ∃ a, k.cb ev = Except.ok a) :
    handleKeyboard ks ev ua =
      ((ks.filter (fun k => checkKeystroke k ev ua)).map
        (fun k => (k.cb, ev)), none)
    ∧ ((∀ k ∈ ks, checkKeystroke k ev ua = false) →
        handleKeyboard ks ev ua = ([], none)) := by
  have h1 : handleKeyboard ks ev ua =
      ((ks.filter (fun k => checkKeystroke k ev ua)).map
        (fun k => (k.cb, ev)), none) := by
    have := dispatchRun_append ks [] ev ua h
    simpa [handleKeyboard, dispatchRun] using this
  refine ⟨h1, fun h0 => ?_⟩
  rw [h1]
  have : ks.filter (fun k => checkKeystroke k ev ua) = [] := by
    rw [List.filter_eq_nil_iff]
    intro k hk
    simp [h0 k hk]
  simp [this]

/-- A callback that records nothing and returns normally with value 1. -/
def wCbA : Event → Except Unit Nat := fun _ => Except.ok 1

/-- A callback that records nothing and returns normally with value 2. -/
def wCbB : Event → Except Unit Nat := fun _ => Except.ok 2

/-- A rule requiring the Enter key. -/
def wRuleA : iKeystroke Unit Nat := ⟨[Key.Enter], [], wCbA⟩

/-- A rule excluding the Shift key. -/
def wRuleB : iKeystroke Unit Nat := ⟨[], [Key.Shift], wCbB⟩

/-- Claim C2 witness: on an Enter event both concrete rules match and both
callbacks are invoked with the original event, in declared order, with no
exception. -/
theorem handleKeyboard_spec_witness :
    handleKeyboard [wRuleA, wRuleB] ⟨"Enter"⟩ ("") =
      ([(wCbA, ⟨"Enter"⟩), (wCbB, ⟨"Enter"⟩)], none) := by
  have hok : ∀ k ∈ [wRuleA, wRuleB], checkKeystroke k ⟨"Enter"⟩ ("") = true →
      ∃ a, k.cb ⟨"Enter"⟩ = Except.ok a := by
    intro k hk _
    simp only [List.mem_cons, List.not_mem_nil, or_false] at hk
    rcases hk with rfl | rfl
    · exact ⟨1, rfl⟩
    · exact ⟨2, rfl⟩
  have h := (handleKeyboard_spec [wRuleA, wRuleB] ⟨"Enter"⟩ ("") hok).1
  rw [h]
  rfl

/-- Claim C9: if the callback of a matching rule throws, the dispatcher
propagates the exception immediately: callbacks of earlier matching rules have
already been invoked (in order, with the original event), the throwing
callback itself was invoked, and no later rule's callback is invoked. -/
theorem handleKeyboard_throw_spec {ε α : Type} (pre post : List (iKeystroke ε α))
    (k : iKeystroke ε α) (ev : Event) (ua : String) (e : ε)
    (hpre : ∀ k' ∈ pre, checkKeystroke k' ev ua = true →
      ∃ a, k'.cb ev = Except.ok a)
    (hk : checkKeystroke k ev ua = true)
    (he : k.cb ev = Except.error e) :
    handleKeyboard (pre ++ k :: post) ev ua =
      ((pre.filter (fun k' => checkKeystroke k' ev ua)).map
        (fun k' => (k'.cb, ev)) ++ [(k.cb, ev)], some e) := by
  have h := dispatchRun_append pre (k :: post) ev ua hpre
  unfold handleKeyboard
  rw [h]
  simp [dispatchRun, hk, he]

/-- A callback that throws. -/
def wCbE : Event → Except String Nat := fun _ => Except.error "boom"

/-- A callback (after the throwing one) that would return normally. -/
def wCbC : Event → Except String Nat := fun _ => Except.ok 3

/-- A callback (before the throwing one) that returns normally. -/
def wCbD : Event → Except String Nat := fun _ => Except.ok 4

/-- Claim C9 witness: three always-matching rules; the second throws, so the
first and second callbacks are invoked and the third is not, and the exception
escapes. -/
theorem handleKeyboard_throw_spec_witness :
    handleKeyboard [⟨[], [], wCbD⟩, ⟨[], [], wCbE⟩, ⟨[], [], wCbC⟩]
        ⟨"Enter"⟩ ("") =
      ([(wCbD, ⟨"Enter"⟩), (wCbE, ⟨"Enter"⟩)], some "boom") := by
  have h := handleKeyboard_throw_spec [⟨[], [], wCbD⟩] [⟨[], [], wCbC⟩]
    ⟨[], [], wCbE⟩ ⟨"Enter"⟩ ("") "boom"
    (by
      intro k' hk' _
      simp only [List.mem_singleton] at hk'
      subst hk'
      exact ⟨4, rfl⟩)
    rfl rfl
  rw [List.singleton_append] at h
  rw [h]
  rfl

/-- The iPhone user-agent string from the repository's unit-test file; it
contains the substring `"Mac"` inside `"like Mac OS X"`. -/
def iphoneUA : String :=
  "Mozilla/5.0 (iPhone; CPU iPhone OS 15_4 like Mac OS X) AppleWebKit/605.1.15 (KHTML, like Gecko) Version/15.4 Mobile/19E241 Safari/604.1"

/-- Claim C3: `isMacOS` returns true exactly when the ambient user-agent
string contains the substring `"Mac"`; the empty string yields false; the
iPhone user-agent, which contains `"like Mac OS X"`, is decided by the same
substring test and therefore yields true. -/
theorem isMacOS_substring :
    (∀ ua : String, isMacOS ua = true ↔ ("Mac").toList <:+: ua.toList)
    ∧ isMacOS ("") = false
    ∧ isMacOS iphoneUA = true := by
  refine ⟨fun ua => by simp [isMacOS], by decide, by decide⟩

/-- The `navigator` object of the ambient environment; its `userAgent`
property may be absent (`none` models JavaScript `undefined`). -/
structure Navigator where
  userAgent : Option String

/-- The ambient global object; the `navigator` property itself may be absent
(`none` models JavaScript `undefined`). -/
structure GlobalThis where
  navigator : Option Navigator

/-- A JavaScript runtime error.  Accessing a property of `undefined` throws a
`TypeError`. -/
inductive JSError where
  | typeError
deriving DecidableEq, Repr

/-- Runtime semantics of the body of `isMacOS`, the expression
`/Mac/.test(globalThis.navigator.userAgent)`, over an explicit ambient global
object: if `globalThis.navigator` is `undefined`, the member access
`.userAgent` throws a `TypeError` (ECMAScript property access on `undefined`);
otherwise `RegExp.prototype.test` coerces its argument to a string — an
`undefined` `userAgent` becomes the string `"undefined"` — and performs the
literal substring test. -/
def isMacOSRun (g : GlobalThis) : Except JSError Bool :=
  match g.navigator with
  | none => Except.error JSError.typeError
  | some nav => Except.ok (isMacOS (nav.userAgent.getD ("undefined")))

/-- Claim C4 counterexample: in the ambient state where the `navigator` object
is absent, the call does not complete normally — the property access throws a
`TypeError` — so `isMacOS()` is not total over every state of the ambient
platform signal. -/
theorem isMacOS_absent_navigator_throws :
    isMacOSRun ⟨none⟩ = Except.error JSError.typeError := rfl

/-- Claim C4 (amended): whenever the `navigator` object is present,
`isMacOS()` completes normally for every user-agent value — including an
absent, malformed, or empty user-agent string — and a missing or empty
user-agent yields false (a non-macOS classification); only the absence of the
`navigator` object itself makes the call throw. -/
theorem isMacOS_no_throw_amended :
    (∀ nav : Navigator, ∃ b : Bool, isMacOSRun ⟨some nav⟩ = Except.ok b)
    ∧ isMacOSRun ⟨some ⟨none⟩⟩ = Except.ok false
    ∧ isMacOSRun ⟨some ⟨some ("")⟩⟩ = Except.ok false := by
  refine ⟨fun nav => ⟨_, rfl⟩, ?_, ?_⟩
  · show Except.ok (isMacOS ("undefined")) = Except.ok false
    have : isMacOS ("undefined") = false := by decide
    rw [this]
  · show Except.ok (isMacOS ("")) = Except.ok false
    have : isMacOS ("") = false := by decide
    rw [this]

/-- Claim C5: every entry of the `Key` catalog computes exactly its specified
function of the event's key string and the platform: the literal entries are
equality tests against one string constant, and the OS-aware entries combine a
key-identity test with the platform detector's result for the user-agent
string in force at the call. -/
theorem Key_catalog_spec :
    ∀ ua : String, ∀ ev : Event,
      (Key.Enter ua ev = true ↔ ev.key = "Enter")
      ∧ (Key.Backspace ua ev = true ↔ ev.key = "Backspace")
      ∧ (Key.Shift ua ev = true ↔ ev.key = "Shift")
      ∧ (Key.Escape ua ev = true ↔ ev.key = "Escape")
      ∧ (Key.Tab ua ev = true ↔ ev.key = "Tab")
      ∧ (Key.Control ua ev = true ↔ ev.key = "Control")
      ∧ (Key.Meta ua ev = true ↔ ev.key = "Meta")
      ∧ (Key.Alt ua ev = true ↔ ev.key = "Alt")
      ∧ (Key.Spacebar ua ev = true ↔ ev.key = " ")
      ∧ (Key.Up ua ev = true ↔ ev.key = "ArrowUp")
      ∧ (Key.Down ua ev = true ↔ ev.key = "ArrowDown")
      ∧ (Key.Left ua ev = true ↔ ev.key = "ArrowLeft")
      ∧ (Key.Right ua ev = true ↔ ev.key = "ArrowRight")
      ∧ (Key.CtrlWin ua ev = true ↔ (ev.key = "Control" ∧ isMacOS ua = false))
      ∧ (Key.WindowsKey ua ev = true ↔ (ev.key = "Meta" ∧ isMacOS ua = false))
      ∧ (Key.CtrlMac ua ev = true ↔ (ev.key = "Control" ∧ isMacOS ua = true))
      ∧ (Key.Command ua ev = true ↔ (ev.key = "Meta" ∧ isMacOS ua = true))
      ∧ (Key.mod1 ua ev = true ↔
          ((ev.key = "Control" ∧ isMacOS ua = false)
            ∨ (ev.key = "Meta" ∧ isMacOS ua = true)))
      ∧ (Key.mod2 ua ev = true ↔
          ((ev.key = "Control" ∧ isMacOS ua = true)
            ∨ (ev.key = "Meta" ∧ isMacOS ua = false))) := by
  intro ua ev
  refine ⟨?_, ?_, ?_, ?_, ?_, ?_, ?_, ?_, ?_, ?_, ?_, ?_, ?_, ?_, ?_, ?_, ?_,
    ?_, ?_⟩ <;>
    simp [Key.Enter, Key.Backspace, Key.Shift, Key.Escape, Key.Tab,
      Key.Control, Key.Meta, Key.Alt, Key.Spacebar, Key.Up, Key.Down,
      Key.Left, Key.Right, Key.CtrlWin, Key.WindowsKey, Key.CtrlMac,
      Key.Command, Key.mod1, Key.mod2, Bool.not_eq_true']

/-- Claim C6: for every ambient user-agent string and every event, `mod1` and
`mod2` are never both true; on macOS `mod1` holds on key `"Meta"` and fails on
key `"Control"`, and on a non-macOS platform `mod1` holds on key `"Control"`
and fails on key `"Meta"`. -/
theorem mod1_mod2_exclusive :
    ∀ ua : String, ∀ ev : Event,
      (¬(Key.mod1 ua ev = true ∧ Key.mod2 ua ev = true))
      ∧ (isMacOS ua = true →
          Key.mod1 ua ⟨"Meta"⟩ = true ∧ Key.mod1 ua ⟨"Control"⟩ = false)
      ∧ (isMacOS ua = false →
          Key.mod1 ua ⟨"Control"⟩ = true ∧ Key.mod1 ua ⟨"Meta"⟩ = false) := by
  intro ua ev
  refine ⟨?_, fun h => ?_, fun h => ?_⟩
  · rintro ⟨h1, h2⟩
    simp only [Key.mod1, Key.mod2, Bool.or_eq_true, Bool.and_eq_true,
      beq_iff_eq, Bool.not_eq_true'] at h1 h2
    rcases h1 with ⟨hk1, hm1⟩ | ⟨hk1, hm1⟩ <;>
      rcases h2 with ⟨hk2, hm2⟩ | ⟨hk2, hm2⟩ <;> simp_all
  · constructor <;> simp [Key.mod1, h]
  · constructor <;> simp [Key.mod1, h]

/-- Claim C6 witness: on a macOS user-agent `mod1` accepts Meta, and on a
Windows user-agent `mod1` accepts Control. -/
theorem mod1_mod2_exclusive_witness :
    Key.mod1 ("Macintosh") ⟨"Meta"⟩ = true
    ∧ Key.mod1 ("Windows NT 10.0") ⟨"Control"⟩ = true :=
  ⟨((mod1_mod2_exclusive ("Macintosh") ⟨"Meta"⟩).2.1 (by decide)).1,
    ((mod1_mod2_exclusive ("Windows NT 10.0") ⟨"Control"⟩).2.2 (by decide)).1⟩

/-- Claim C7: the implementation's (possibly short-circuiting) evaluation of
`checkKeystroke` coincides with the spec's fully eager reference evaluation:
every predicate of both lists evaluated, then the two conjunctions taken. -/
theorem checkKeystroke_eager_equiv {ε α : Type} (k : iKeystroke ε α)
    (ev : Event) (ua : String) :
    checkKeystroke k ev ua = checkKeystrokeEagerSpec k ev ua := by
  unfold checkKeystroke checkKeystrokeEagerSpec
  rw [foldl_and_eq_all, foldl_and_eq_all, all_map_id, all_map_id]
  simp

/-- A rule requiring only the OS-aware predicate `mod1`; its satisfaction
depends on the ambient platform signal, not only on the event. -/
def modRule : iKeystroke Unit Nat := ⟨[Key.mod1], [], fun _ => Except.ok 0⟩

/-- Claim C8 counterexample: the same rule evaluated on events with equal key
strings (`"Meta"`) yields different results under different states of the
ambient platform signal — satisfaction is not independent of program state,
because `Key.mod1` re-reads the mutable user-agent string on every call. -/
theorem checkKeystroke_state_dep_cex :
    (⟨"Meta"⟩ : Event).key = (⟨"Meta"⟩ : Event).key
    ∧ checkKeystroke modRule ⟨"Meta"⟩ ("Macintosh") = true
    ∧ checkKeystroke modRule ⟨"Meta"⟩ ("Windows NT 10.0") = false := by
  refine ⟨rfl, by decide, by decide⟩

/-- Claim C8 (amended): under a fixed ambient platform string, rule
satisfaction is deterministic and history-free — any two evaluations of
`checkKeystroke` on the same rule and on events with equal key strings yield
equal results; satisfaction is a pure function of the event's key string and
the ambient platform string, and evaluation does not change the event. -/
theorem checkKeystroke_deterministic {ε α : Type} (k : iKeystroke ε α)
    (ev1 ev2 : Event) (ua : String) (h : ev1.key = ev2.key) :
    checkKeystroke k ev1 ua = checkKeystroke k ev2 ua := by
  cases ev1
  cases ev2
  cases h
  rfl

/-- Claim C8 witness: determinism applied at a concrete rule, event and
user-agent string. -/
theorem checkKeystroke_deterministic_witness :
    checkKeystroke modRule ⟨"Meta"⟩ ("Macintosh") =
      checkKeystroke modRule ⟨"Meta"⟩ ("Macintosh") :=
  checkKeystroke_deterministic modRule ⟨"Meta"⟩ ⟨"Meta"⟩ ("Macintosh") rfl

/-- Claim C10: a self-contradictory rule never matches — if some predicate
occurs both in the rule's `keys` list and in its `except` list, then
`checkKeystroke` returns false on every event, under every ambient user-agent
string. -/
theorem contradictory_rule_never_matches {ε α : Type} (k : iKeystroke ε α)
    (p : CheckKeypress) (hk : p ∈ k.keys) (he : p ∈ k.except) (ev : Event)
    (ua : String) :
    checkKeystroke k ev ua = false := by
  by_contra h
  rw [Bool.not_eq_false] at h
  rcases (checkKeystroke_iff_all k ev ua).mp h with ⟨h1, h2⟩
  have ht := h1 p hk
  have hf := h2 p he
  rw [ht] at hf
  exact Bool.noConfusion hf

/-- Claim C10 witness: a concrete rule requiring and excluding `Key.Enter`
rejects the Enter event. -/
theorem contradictory_rule_never_matches_witness :
    checkKeystroke (ε := Unit) (α := Nat)
      ⟨[Key.Enter], [Key.Enter], fun _ => Except.ok 0⟩ ⟨"Enter"⟩ ("") = false :=
  contradictory_rule_never_matches ⟨[Key.Enter], [Key.Enter], fun _ => Except.ok 0⟩
    Key.Enter (List.mem_singleton.mpr rfl) (List.mem_singleton.mpr rfl)
    ⟨"Enter"⟩ ("")
